import Mathlib

set_option maxRecDepth 100000

/-!
The save-game field codec of srsge.

A shallow embedding of `SaveGame.Read` and `SaveGame.WriteTo` of `main.go`.

* Bytes are natural numbers below 256; `uint16`/`uint32` values are natural
  numbers below `2^16`/`2^32`.
* A `float32` is carried as its IEEE-754 bit pattern: the program touches floats
  only through `math.Float32bits` and `math.Float32frombits`, which are inverse
  bit casts.
* `io.ReadSeeker` / `io.WriteSeeker` are records of state-passing operations over
  a stream state `σ`; a nil error is `none`.
* `File` is a regular file behind `*os.File` (contents plus file offset).
-/

namespace Srsge

/-! ## Go runtime pieces used by the codec -/

/-- Error values a stream operation may return (`nil` is `none : Option Error`). -/
inductive Error where
  | EOF
  | EINVAL
  | ESPIPE
  | ENOSPC
  deriving DecidableEq, Repr

/-- The `whence` argument of `Seek`. -/
inductive Whence where
  | SeekStart
  | SeekCurrent
  | SeekEnd
  deriving DecidableEq, Repr

/-- Interface `io.ReadSeeker`. `Read s n` is a call `Read(p)` with `len(p) = n`: it
returns the new stream state, the bytes stored into the front of `p` and the error.
`Seek s off w` returns the new state, the new offset and the error. -/
structure ReadSeeker (σ : Type) where
  Read : σ → Nat → σ × List Nat × Option Error
  Seek : σ → Int → Whence → σ × Int × Option Error

/-- Interface `io.WriteSeeker`. `Write s p` returns the new stream state, the number
of bytes written and the error. -/
structure WriteSeeker (σ : Type) where
  Write : σ → List Nat → σ × Nat × Option Error
  Seek : σ → Int → Whence → σ × Int × Option Error

/-- A `float32`, carried as its 32-bit IEEE-754 pattern. -/
structure Float32 where
  bits : Nat
  deriving DecidableEq, Repr

/-- Function `math.Float32bits`. -/
def Float32bits (f : Float32) : Nat := f.bits

/-- Function `math.Float32frombits`. -/
def Float32frombits (b : Nat) : Float32 := ⟨b⟩

/-- Method `binary.LittleEndian.Uint16`:
`uint16(b[0]) | uint16(b[1])<<8`. -/
def Uint16 (b : List Nat) : Nat :=
  b.getD 0 0 ||| (b.getD 1 0 <<< 8)

/-- Method `binary.LittleEndian.Uint32`:
`uint32(b[0]) | uint32(b[1])<<8 | uint32(b[2])<<16 | uint32(b[3])<<24`. -/
def Uint32 (b : List Nat) : Nat :=
  b.getD 0 0 ||| (b.getD 1 0 <<< 8) ||| (b.getD 2 0 <<< 16) ||| (b.getD 3 0 <<< 24)

/-- Method `binary.LittleEndian.PutUint16`: `b[0] = byte(v)`, `b[1] = byte(v >> 8)`;
the rest of `b` is kept. -/
def PutUint16 (b : List Nat) (v : Nat) : List Nat :=
  (b.set 0 (v % 256)).set 1 ((v >>> 8) % 256)

/-- Method `binary.LittleEndian.PutUint32`: `b[i] = byte(v >> (8*i))` for `i < 4`;
the rest of `b` is kept. -/
def PutUint32 (b : List Nat) (v : Nat) : List Nat :=
  (((b.set 0 (v % 256)).set 1 ((v >>> 8) % 256)).set 2 ((v >>> 16) % 256)).set 3
    ((v >>> 24) % 256)

/-- The scratch array after a call `Read(buf[:n])` that stored `data`: the bytes
stored replace the front of `buf`, the bytes behind them keep their old value. -/
def fill (buf : List Nat) (n : Nat) (data : List Nat) : List Nat :=
  data.take n ++ buf.drop (data.take n).length

/-! ## The program -/

/-- The record `SaveGame`. -/
structure SaveGame where
  Year : Nat
  Rubles : Float32
  Dollars : Float32
  deriving DecidableEq, Repr

def DOLLARS_POS : Nat := 388
def RUBLES_POS : Nat := 392
def YEAR_POS : Nat := 412

/-- Method `(*SaveGame).Read`. Takes the receiver and the stream state, returns the
receiver and the stream state after the call, and the returned error. The results
of the three `Seek` calls are dropped, as in the source; of each `Read` call only
the error is looked at. -/
def SaveGame.Read {σ : Type} (inp : ReadSeeker σ) (sg : SaveGame) (s : σ) :
    SaveGame × σ × Option Error :=
  let buf : List Nat := [0, 0, 0, 0]
  let s := (inp.Seek s DOLLARS_POS Whence.SeekStart).1
  let r := inp.Read s 4
  let s := r.1
  let buf := fill buf 4 r.2.1
  match r.2.2 with
  | some err => (sg, s, some err)
  | none =>
    let sg := { sg with Dollars := Float32frombits (Uint32 buf) }
    let s := (inp.Seek s RUBLES_POS Whence.SeekStart).1
    let r := inp.Read s 4
    let s := r.1
    let buf := fill buf 4 r.2.1
    match r.2.2 with
    | some err => (sg, s, some err)
    | none =>
      let sg := { sg with Rubles := Float32frombits (Uint32 buf) }
      let s := (inp.Seek s YEAR_POS Whence.SeekStart).1
      let r := inp.Read s 2
      let s := r.1
      let buf := fill (buf.take 2) 2 r.2.1 ++ buf.drop 2
      match r.2.2 with
      | some err => (sg, s, some err)
      | none =>
        let sg := { sg with Year := Uint16 (buf.take 2) }
        (sg, s, none)

/-- Method `(*SaveGame).WriteTo`. Takes the receiver and the stream state, returns
the receiver and the stream state after the call, and the returned error. The
results of the three `Write` calls are dropped, as in the source. -/
def SaveGame.WriteTo {σ : Type} (out : WriteSeeker σ) (sg : SaveGame) (s : σ) :
    SaveGame × σ × Option Error :=
  let buf : List Nat := [0, 0, 0, 0]
  let buf := PutUint32 buf (Float32bits sg.Dollars)
  let r := out.Seek s DOLLARS_POS Whence.SeekStart
  let s := r.1
  match r.2.2 with
  | some err => (sg, s, some err)
  | none =>
    let s := (out.Write s buf).1
    let buf := PutUint32 buf (Float32bits sg.Rubles)
    let r := out.Seek s RUBLES_POS Whence.SeekStart
    let s := r.1
    match r.2.2 with
    | some err => (sg, s, some err)
    | none =>
      let s := (out.Write s buf).1
      let buf := PutUint16 buf sg.Year
      let r := out.Seek s YEAR_POS Whence.SeekStart
      let s := r.1
      match r.2.2 with
      | some err => (sg, s, some err)
      | none =>
        let s := (out.Write s (buf.take 2)).1
        (sg, s, none)

/-! ## Streams -/

/-- A regular file behind `*os.File`: its contents and the file offset. -/
structure File where
  data : List Nat
  pos : Nat
  deriving DecidableEq, Repr

/-- Method `(*os.File).Seek` on a regular file: the new offset is the base chosen by
`whence` plus `offset`; a negative result is refused with `EINVAL`, any other
offset, also one behind the end of the file, is accepted. -/
def File.Seek (f : File) (offset : Int) (whence : Whence) : File × Int × Option Error :=
  let base : Int :=
    match whence with
    | Whence.SeekStart => 0
    | Whence.SeekCurrent => f.pos
    | Whence.SeekEnd => f.data.length
  if base + offset < 0 then (f, 0, some Error.EINVAL)
  else ({ f with pos := (base + offset).toNat }, base + offset, none)

/-- Method `(*os.File).Read` on a regular file: a request for zero bytes returns
nothing; at or behind the end of the file it returns `io.EOF`; otherwise it returns
the `min n (length - pos)` bytes at the offset, with a nil error, and advances. -/
def File.Read (f : File) (n : Nat) : File × List Nat × Option Error :=
  if n = 0 then (f, [], none)
  else if f.data.length ≤ f.pos then (f, [], some Error.EOF)
  else
    let d := (f.data.drop f.pos).take n
    ({ f with pos := f.pos + d.length }, d, none)

/-- Method `(*os.File).Write` on a regular file opened without `O_APPEND`: the bytes
replace the contents at the offset; a write behind the end of the file extends it,
the gap reading as zero bytes. -/
def File.Write (f : File) (p : List Nat) : File × Nat × Option Error :=
  if p = [] then (f, 0, none)
  else
    let padded := f.data ++ List.replicate (f.pos - f.data.length) 0
    ({ data := padded.take f.pos ++ p ++ padded.drop (f.pos + p.length),
       pos := f.pos + p.length }, p.length, none)

/-- A regular file as an `io.ReadSeeker`. -/
def File.readSeeker : ReadSeeker File := ⟨File.Read, File.Seek⟩

/-- A regular file as an `io.WriteSeeker`. -/
def File.writeSeeker : WriteSeeker File := ⟨File.Write, File.Seek⟩

/-- A stream that cannot seek (a pipe or FIFO behind `*os.File`): `Seek` fails with
`ESPIPE` and leaves the stream alone, `Read` hands out the bytes in order. The
state is the list of bytes still to come. -/
def pipeReadSeeker : ReadSeeker (List Nat) where
  Read := fun s n =>
    if n = 0 then (s, [], none)
    else if s = [] then (s, [], some Error.EOF)
    else (s.drop n, s.take n, none)
  Seek := fun s _ _ => (s, 0, some Error.ESPIPE)

/-- A target on which seeks succeed and every write fails without storing anything
(a file on a full device): `Write` returns `0, ENOSPC`. -/
def fullWriteSeeker : WriteSeeker File where
  Write := fun f _ => (f, 0, some Error.ENOSPC)
  Seek := File.Seek

/-- Every element of the buffer is a byte. -/
def Bytes (b : List Nat) : Prop := ∀ x ∈ b, x < 256

instance (b : List Nat) : Decidable (Bytes b) :=
  inferInstanceAs (Decidable (∀ x ∈ b, x < 256))

/-! ## Auxiliary definitions used in the statements -/

/-- The contents of a regular file after a write of the bytes at the offset. -/
def wr (l : List Nat) (pos : Nat) (p : List Nat) : List Nat :=
  (File.Write ⟨l, pos⟩ p).1.data

/-- The first call of the stream method made by the decoder (the dollars field). -/
def firstRead {σ : Type} (inp : ReadSeeker σ) (s : σ) : σ × List Nat × Option Error :=
  inp.Read (inp.Seek s DOLLARS_POS Whence.SeekStart).1 4

/-- The second call of the stream method made by the decoder (the rubles field),
which happens when the first one returned a nil error. -/
def secondRead {σ : Type} (inp : ReadSeeker σ) (s : σ) : σ × List Nat × Option Error :=
  inp.Read (inp.Seek (firstRead inp s).1 RUBLES_POS Whence.SeekStart).1 4

/-! ## Worked inputs -/

/-- The record of the worked example: year 2031, rubles 4567.25 (bits 0x458EBA00),
dollars 123.5 (bits 0x42F70000). -/
def exampleRecord : SaveGame := ⟨2031, ⟨0x458EBA00⟩, ⟨0x42F70000⟩⟩

/-- A record with three distinct field values, used as the receiver before a decode. -/
def priorRecord : SaveGame := ⟨1, ⟨2⟩, ⟨3⟩⟩

/-- A file of 512 zero bytes, offset 0. -/
def zeroFile : File := ⟨List.replicate 512 0, 0⟩

/-- A file of 414 bytes, offset 5: the dollars field holds 123.5 (bits 0x42F70000), the
rubles field holds 4567.25 (bits 0x458EBA00), bytes 412 and 413 are 0xFF, every other
byte is zero. -/
def maxYearFile : File :=
  ⟨List.replicate 388 0 ++ [0, 0, 247, 66] ++ [0, 186, 142, 69] ++ List.replicate 16 0 ++
    [255, 255], 5⟩

/-- A file of 414 bytes whose dollars field holds a NaN with a payload (bits
0x7FC00001), whose rubles field holds negative zero (bits 0x80000000) and whose year
is 2031. -/
def oddFloatsFile : File :=
  ⟨List.replicate 388 0 ++ [1, 0, 192, 127] ++ [0, 0, 0, 128] ++ List.replicate 16 0 ++
    [239, 7], 7⟩

/-- A file of 413 bytes: one byte short of the year field. Byte 393 is 7 and byte 412,
the last one, is 1. -/
def truncatedFile : File :=
  ⟨List.replicate 393 0 ++ [7] ++ List.replicate 18 0 ++ [1], 0⟩

/-- A file of 400 bytes, each 9: it holds the two float fields and stops before the
year field. -/
def shortFile : File := ⟨List.replicate 400 9, 0⟩

/-- An empty file. -/
def emptyFile : File := ⟨[], 0⟩

/-- A file of 390 zero bytes. -/
def file390 : File := ⟨List.replicate 390 0, 0⟩


/-! ## Arithmetic of the byte order -/

theorem or_shiftLeft_eq_add (a b k : Nat) (h : a < 2 ^ k) : a ||| (b <<< k) = a + 2 ^ k * b := by
  rw [Nat.shiftLeft_eq, Nat.or_comm, Nat.mul_comm b, ← Nat.mul_add_lt_is_or h b, Nat.add_comm]

theorem Uint16_eq_add (a b : Nat) (l : List Nat) (ha : a < 256) :
    Uint16 (a :: b :: l) = a + 256 * b := by
  simp only [Uint16, List.getD_cons_zero, List.getD_cons_succ]
  rw [or_shiftLeft_eq_add a b 8 (by omega)]; norm_num

theorem Uint32_eq_add (a b c d : Nat) (l : List Nat) (ha : a < 256) (hb : b < 256)
    (hc : c < 256) :
    Uint32 (a :: b :: c :: d :: l) = a + 256 * b + 65536 * c + 16777216 * d := by
  simp only [Uint32, List.getD_cons_zero, List.getD_cons_succ]
  rw [or_shiftLeft_eq_add a b 8 (by omega), or_shiftLeft_eq_add _ c 16 (by omega),
    or_shiftLeft_eq_add _ d 24 (by omega)]
  norm_num

theorem PutUint32_four (a b c d v : Nat) :
    PutUint32 [a, b, c, d] v = [v % 256, (v >>> 8) % 256, (v >>> 16) % 256, (v >>> 24) % 256] := by
  simp [PutUint32]

theorem PutUint16_four (a b c d v : Nat) :
    PutUint16 [a, b, c, d] v = [v % 256, (v >>> 8) % 256, c, d] := by
  simp [PutUint16]

/-! ## Regular files -/

theorem File.Seek_start (f : File) (n : Nat) :
    File.Seek f (n : Int) Whence.SeekStart = (⟨f.data, n⟩, (n : Int), none) := by
  simp only [File.Seek]
  have h : ¬ ((0 : Int) + (n : Int) < 0) := by omega
  rw [if_neg h]
  simp

theorem File.Read_avail (l : List Nat) (p n : Nat) (hn : n ≠ 0) (h : p < l.length) :
    File.Read ⟨l, p⟩ n = (⟨l, p + ((l.drop p).take n).length⟩, (l.drop p).take n, none) := by
  simp only [File.Read]
  rw [if_neg hn, if_neg (by simpa using h)]

theorem File.Read_eof (l : List Nat) (p n : Nat) (hn : n ≠ 0) (h : l.length ≤ p) :
    File.Read ⟨l, p⟩ n = (⟨l, p⟩, [], some Error.EOF) := by
  simp only [File.Read]
  rw [if_neg hn, if_pos (by simpa using h)]

theorem File.Write_eq (l : List Nat) (pos : Nat) (p : List Nat) (hp : p ≠ []) :
    File.Write ⟨l, pos⟩ p = (⟨wr l pos p, pos + p.length⟩, p.length, none) := by
  simp [wr, File.Write, hp]

theorem wr_length (l : List Nat) (pos : Nat) (p : List Nat) (hp : p ≠ []) :
    (wr l pos p).length = max l.length (pos + p.length) := by
  simp only [wr, File.Write, if_neg hp, List.length_append, List.length_take, List.length_drop,
    List.length_replicate]
  omega

theorem wr_getElem? (l : List Nat) (pos : Nat) (p : List Nat) (hp : p ≠ []) (i : Nat) :
    (wr l pos p)[i]? =
      if i < pos then (if i < l.length then l[i]? else some 0)
      else if i < pos + p.length then p[i - pos]? else l[i]? := by
  simp only [wr, File.Write, if_neg hp, List.getElem?_append, List.length_append,
    List.length_take, List.length_drop, List.length_replicate, List.getElem?_take,
    List.getElem?_drop, List.getElem?_replicate]
  split_ifs <;> first | rfl | omega | (congr 1; omega) | (symm; apply List.getElem?_eq_none; omega)

/-- The four bytes of a buffer from index `p` on. -/
theorem take4_drop (l : List Nat) (p : Nat) (h : p + 4 ≤ l.length) :
    (l.drop p).take 4 = [l.getD p 0, l.getD (p + 1) 0, l.getD (p + 2) 0, l.getD (p + 3) 0] := by
  apply List.ext_getElem?
  intro i
  rcases i with _ | _ | _ | _ | i <;>
    simp [List.getElem?_take, List.getElem?_drop, List.getD_eq_getElem?_getD] <;>
    (rw [List.getElem?_eq_getElem (by omega)]; rfl)

theorem take2_drop (l : List Nat) (p : Nat) (h : p + 2 ≤ l.length) :
    (l.drop p).take 2 = [l.getD p 0, l.getD (p + 1) 0] := by
  apply List.ext_getElem?
  intro i
  rcases i with _ | _ | i <;>
    simp [List.getElem?_take, List.getElem?_drop, List.getD_eq_getElem?_getD] <;>
    (rw [List.getElem?_eq_getElem (by omega)]; rfl)

/-- What `Read` does on a regular file that holds all three fields. -/
theorem Read_file (sg : SaveGame) (f : File) (h : 414 ≤ f.data.length) :
    SaveGame.Read File.readSeeker sg f =
      (⟨Uint16 [f.data.getD 412 0, f.data.getD 413 0],
        Float32frombits (Uint32 [f.data.getD 392 0, f.data.getD 393 0, f.data.getD 394 0,
          f.data.getD 395 0]),
        Float32frombits (Uint32 [f.data.getD 388 0, f.data.getD 389 0, f.data.getD 390 0,
          f.data.getD 391 0])⟩, ⟨f.data, 414⟩, none) := by
  simp only [SaveGame.Read, File.readSeeker, DOLLARS_POS, RUBLES_POS, YEAR_POS, File.Seek_start]
  rw [File.Read_avail _ _ _ (by decide) (by omega)]
  simp only [take4_drop f.data 388 (by omega)]
  rw [File.Read_avail _ _ _ (by decide) (by omega)]
  simp only [take4_drop f.data 392 (by omega)]
  rw [File.Read_avail _ _ _ (by decide) (by omega)]
  simp only [take2_drop f.data 412 (by omega)]
  simp [fill]

/-- What `WriteTo` does on a regular file, of any length. -/
theorem WriteTo_file (R : SaveGame) (f : File) :
    SaveGame.WriteTo File.writeSeeker R f =
      (R, ⟨wr (wr (wr f.data 388
          [R.Dollars.bits % 256, (R.Dollars.bits >>> 8) % 256, (R.Dollars.bits >>> 16) % 256,
            (R.Dollars.bits >>> 24) % 256]) 392
          [R.Rubles.bits % 256, (R.Rubles.bits >>> 8) % 256, (R.Rubles.bits >>> 16) % 256,
            (R.Rubles.bits >>> 24) % 256]) 412
          [R.Year % 256, (R.Year >>> 8) % 256], 414⟩, none) := by
  simp only [SaveGame.WriteTo, File.writeSeeker, DOLLARS_POS, RUBLES_POS, YEAR_POS,
    File.Seek_start, PutUint32_four, PutUint16_four, Float32bits, List.take_succ_cons,
    List.take_zero]
  rw [File.Write_eq _ _ _ (by simp)]
  simp only []
  rw [File.Write_eq _ _ _ (by simp)]
  simp only []
  rw [File.Write_eq _ _ _ (by simp)]
  rfl

/-- Byte `i` of a regular file of at least 414 bytes after `WriteTo`. -/
theorem WriteTo_file_getElem? (R : SaveGame) (f : File) (hlen : 414 ≤ f.data.length) (i : Nat) :
    (SaveGame.WriteTo File.writeSeeker R f).2.1.data[i]? =
      if 412 ≤ i ∧ i < 414 then [R.Year % 256, (R.Year >>> 8) % 256][i - 412]?
      else if 392 ≤ i ∧ i < 396 then
        [R.Rubles.bits % 256, (R.Rubles.bits >>> 8) % 256, (R.Rubles.bits >>> 16) % 256,
          (R.Rubles.bits >>> 24) % 256][i - 392]?
      else if 388 ≤ i ∧ i < 392 then
        [R.Dollars.bits % 256, (R.Dollars.bits >>> 8) % 256, (R.Dollars.bits >>> 16) % 256,
          (R.Dollars.bits >>> 24) % 256][i - 388]?
      else f.data[i]? := by
  rw [WriteTo_file]
  simp only [wr_getElem? _ _ _ (List.cons_ne_nil _ _), wr_length _ _ _ (List.cons_ne_nil _ _),
    List.length_cons, List.length_nil]
  split_ifs <;> first | omega | rfl

/-- The length of a regular file after `WriteTo`: a file shorter than 414 bytes is
extended to 414 bytes, a longer one keeps its length. -/
theorem WriteTo_file_length (R : SaveGame) (f : File) :
    (SaveGame.WriteTo File.writeSeeker R f).2.1.data.length = max f.data.length 414 := by
  rw [WriteTo_file]
  simp only [wr_length _ _ _ (List.cons_ne_nil _ _), List.length_cons, List.length_nil]
  omega

theorem Bytes_getD (l : List Nat) (h : Bytes l) (i : Nat) : l.getD i 0 < 256 := by
  rw [List.getD_eq_getElem?_getD]
  cases hi : l[i]? with
  | none => simp
  | some x => exact h x (List.getElem?_mem hi)

theorem getElem?_eq_some_getD (l : List Nat) (i : Nat) (h : i < l.length) :
    l[i]? = some (l.getD i 0) := by
  rw [List.getD_eq_getElem?_getD, List.getElem?_eq_getElem h]; rfl

theorem Uint32_le_bytes (v : Nat) (h : v < 2 ^ 32) :
    Uint32 [v % 256, (v >>> 8) % 256, (v >>> 16) % 256, (v >>> 24) % 256] = v := by
  rw [Uint32_eq_add _ _ _ _ _ (Nat.mod_lt _ (by decide))
    (Nat.mod_lt _ (by decide)) (Nat.mod_lt _ (by decide))]
  simp only [Nat.shiftRight_eq_div_pow]
  omega

theorem Uint16_le_bytes (v : Nat) (h : v < 2 ^ 16) :
    Uint16 [v % 256, (v >>> 8) % 256] = v := by
  rw [Uint16_eq_add _ _ _ (Nat.mod_lt _ (by decide))]
  simp only [Nat.shiftRight_eq_div_pow]
  omega

/-- The decode of a regular file of at least 414 bytes, the fields written as sums of
the bytes weighted by powers of 256. -/
theorem Read_file_sum (sg : SaveGame) (f : File) (hlen : 414 ≤ f.data.length)
    (hb : Bytes f.data) :
    SaveGame.Read File.readSeeker sg f =
      (⟨f.data.getD 412 0 + 2 ^ 8 * f.data.getD 413 0,
        ⟨f.data.getD 392 0 + 2 ^ 8 * f.data.getD 393 0 +
          2 ^ 16 * f.data.getD 394 0 + 2 ^ 24 * f.data.getD 395 0⟩,
        ⟨f.data.getD 388 0 + 2 ^ 8 * f.data.getD 389 0 +
          2 ^ 16 * f.data.getD 390 0 + 2 ^ 24 * f.data.getD 391 0⟩⟩, ⟨f.data, 414⟩, none) := by
  rw [Read_file sg f hlen, Uint16_eq_add _ _ _ (Bytes_getD _ hb _),
    Uint32_eq_add _ _ _ _ _ (Bytes_getD _ hb _) (Bytes_getD _ hb _) (Bytes_getD _ hb _),
    Uint32_eq_add _ _ _ _ _ (Bytes_getD _ hb _) (Bytes_getD _ hb _) (Bytes_getD _ hb _)]
  simp only [Float32frombits]
  norm_num

/-- On a regular file the decoder returns an error exactly when the file has at most
412 bytes: a file of 413 bytes, which lacks the high byte of the year, is accepted. -/
theorem Read_file_error_iff (sg : SaveGame) (f : File) :
    (SaveGame.Read File.readSeeker sg f).2.2 ≠ none ↔ f.data.length ≤ 412 := by
  simp only [SaveGame.Read, File.readSeeker, DOLLARS_POS, RUBLES_POS, YEAR_POS, File.Seek_start]
  by_cases h1 : f.data.length ≤ 388
  · rw [File.Read_eof _ _ _ (by decide) h1]
    simp; omega
  · rw [File.Read_avail _ _ _ (by decide) (by omega)]
    simp only []
    by_cases h2 : f.data.length ≤ 392
    · rw [File.Read_eof _ _ _ (by decide) h2]
      simp; omega
    · rw [File.Read_avail _ _ _ (by decide) (by omega)]
      simp only []
      by_cases h3 : f.data.length ≤ 412
      · rw [File.Read_eof _ _ _ (by decide) h3]
        simp [h3]
      · rw [File.Read_avail _ _ _ (by decide) (by omega)]
        simp [h3]

/-! ## The claims -/

/-- Claim C1, round trip: for every record whose year is below 2^16 and whose two float
fields are 32-bit patterns, and every regular file of at least 414 bytes, `WriteTo`
returns nil, and `Read` on the resulting stream, into any receiver, returns nil and
leaves the receiver equal to the record, the float fields bit for bit. -/
theorem WriteTo_Read_roundtrip (R sg : SaveGame) (f : File) (hY : R.Year < 2 ^ 16)
    (hD : Float32bits R.Dollars < 2 ^ 32) (hR : Float32bits R.Rubles < 2 ^ 32)
    (hlen : 414 ≤ f.data.length) :
    (SaveGame.WriteTo File.writeSeeker R f).2.2 = none ∧
    (SaveGame.Read File.readSeeker sg (SaveGame.WriteTo File.writeSeeker R f).2.1).2.2 = none ∧
    (SaveGame.Read File.readSeeker sg (SaveGame.WriteTo File.writeSeeker R f).2.1).1 = R := by
  have hlen2 : 414 ≤ (SaveGame.WriteTo File.writeSeeker R f).2.1.data.length := by
    rw [WriteTo_file_length]; omega
  have hg : ∀ i, (SaveGame.WriteTo File.writeSeeker R f).2.1.data.getD i 0 =
      ((SaveGame.WriteTo File.writeSeeker R f).2.1.data[i]?).getD 0 :=
    fun i => List.getD_eq_getElem?_getD _ _ _
  refine ⟨by rw [WriteTo_file], ?_, ?_⟩
  · rw [Read_file _ _ hlen2]
  · rw [Read_file _ _ hlen2]
    simp only [hg, WriteTo_file_getElem? R f hlen]
    simp only [Float32bits] at hD hR
    norm_num
    rw [Uint32_le_bytes _ hD, Uint32_le_bytes _ hR, Uint16_le_bytes _ hY]
    rfl

/-- The round trip on the worked example: 512 zero bytes, year 2031, dollars 123.5,
rubles 4567.25. -/
theorem WriteTo_Read_roundtrip_witness :
    exampleRecord.Year < 2 ^ 16 ∧ Float32bits exampleRecord.Dollars < 2 ^ 32 ∧
    Float32bits exampleRecord.Rubles < 2 ^ 32 ∧ 414 ≤ zeroFile.data.length ∧
    (SaveGame.WriteTo File.writeSeeker exampleRecord zeroFile).2.2 = none ∧
    (SaveGame.Read File.readSeeker priorRecord
      (SaveGame.WriteTo File.writeSeeker exampleRecord zeroFile).2.1).2.2 = none ∧
    (SaveGame.Read File.readSeeker priorRecord
      (SaveGame.WriteTo File.writeSeeker exampleRecord zeroFile).2.1).1 = exampleRecord :=
  ⟨by decide, by decide, by decide, by decide,
   WriteTo_Read_roundtrip exampleRecord priorRecord zeroFile (by decide) (by decide)
     (by decide) (by decide)⟩

/-- Claim C2, byte isolation: on a regular file of at least 414 bytes `WriteTo` keeps
the length, and every byte whose index lies outside [388,392), [392,396) and
[412,414) is the byte that was there before the write. -/
theorem WriteTo_isolation (R : SaveGame) (f : File) (hlen : 414 ≤ f.data.length) :
    (SaveGame.WriteTo File.writeSeeker R f).2.1.data.length = f.data.length ∧
    ∀ i : Nat, ¬ (388 ≤ i ∧ i < 392) → ¬ (392 ≤ i ∧ i < 396) → ¬ (412 ≤ i ∧ i < 414) →
      (SaveGame.WriteTo File.writeSeeker R f).2.1.data[i]? = f.data[i]? := by
  refine ⟨?_, ?_⟩
  · rw [WriteTo_file_length]; omega
  · intro i h1 h2 h3
    rw [WriteTo_file_getElem? R f hlen, if_neg h3, if_neg h2, if_neg h1]

/-- Byte isolation on the worked example, at the length and at bytes 414 and 415, the
two bytes behind the year field. -/
theorem WriteTo_isolation_witness :
    414 ≤ zeroFile.data.length ∧
    (SaveGame.WriteTo File.writeSeeker exampleRecord zeroFile).2.1.data.length =
      zeroFile.data.length ∧
    (SaveGame.WriteTo File.writeSeeker exampleRecord zeroFile).2.1.data[414]? =
      zeroFile.data[414]? ∧
    (SaveGame.WriteTo File.writeSeeker exampleRecord zeroFile).2.1.data[415]? =
      zeroFile.data[415]? :=
  ⟨by decide,
   (WriteTo_isolation exampleRecord zeroFile (by decide)).1,
   (WriteTo_isolation exampleRecord zeroFile (by decide)).2 414
       (by omega) (by omega) (by omega),
   (WriteTo_isolation exampleRecord zeroFile (by decide)).2 415
       (by omega) (by omega) (by omega)⟩

/-- Claim C3, truncated input: the claim asks for an error on every stream shorter than
414 bytes. On the file of 413 bytes `Read` returns nil: the last `Read` call stores
one byte and reports no error, and the year is put together from byte 412 and the
stale second scratch byte, which is byte 393 of the file (1 + 256 * 7 = 1793). -/
theorem Read_truncated_413_accepted :
    truncatedFile.data.length = 413 ∧
    SaveGame.Read File.readSeeker priorRecord truncatedFile =
      (⟨1793, ⟨1792⟩, ⟨0⟩⟩, ⟨truncatedFile.data, 413⟩, none) := by
  decide

/-- Claim C4 as stated fails: on the file of 400 bytes `Read` returns `io.EOF` from the
year field, and by then `Dollars` and `Rubles` of the receiver hold the decoded
pattern 0x09090909 and no longer the prior values 3 and 2. -/
theorem Read_error_overwrites_fields :
    (SaveGame.Read File.readSeeker priorRecord shortFile).2.2 = some Error.EOF ∧
    (SaveGame.Read File.readSeeker priorRecord shortFile).1 = ⟨1, ⟨151587081⟩, ⟨151587081⟩⟩ ∧
    (SaveGame.Read File.readSeeker priorRecord shortFile).1.Dollars ≠ priorRecord.Dollars ∧
    (SaveGame.Read File.readSeeker priorRecord shortFile).1.Rubles ≠ priorRecord.Rubles := by
  decide

/-- Claim C4, amended: for every stream, whenever `Read` returns a non-nil error the
year of the receiver is the one from before the call; when the first `Read` call is
the one that fails, the whole receiver is unchanged; when the first call succeeds,
`Dollars` has been overwritten with the decoded value; `Rubles` is unchanged when the
second call fails and overwritten with the decoded value when it succeeds. -/
theorem Read_error_fields {σ : Type} (inp : ReadSeeker σ) (sg : SaveGame) (s : σ)
    (herr : (SaveGame.Read inp sg s).2.2 ≠ none) :
    (SaveGame.Read inp sg s).1.Year = sg.Year ∧
    ((firstRead inp s).2.2 ≠ none → (SaveGame.Read inp sg s).1 = sg) ∧
    ((firstRead inp s).2.2 = none →
      (SaveGame.Read inp sg s).1.Dollars =
        Float32frombits (Uint32 (fill [0, 0, 0, 0] 4 (firstRead inp s).2.1))) ∧
    ((firstRead inp s).2.2 = none → (secondRead inp s).2.2 ≠ none →
      (SaveGame.Read inp sg s).1.Rubles = sg.Rubles) ∧
    ((firstRead inp s).2.2 = none → (secondRead inp s).2.2 = none →
      (SaveGame.Read inp sg s).1.Rubles =
        Float32frombits (Uint32 (fill (fill [0, 0, 0, 0] 4 (firstRead inp s).2.1) 4
          (secondRead inp s).2.1))) := by
  simp only [secondRead, firstRead]
  simp only [SaveGame.Read] at herr ⊢
  cases h1 : (inp.Read (inp.Seek s DOLLARS_POS Whence.SeekStart).1 4).2.2 with
  | some e1 => simp
  | none =>
    simp only [h1] at herr ⊢
    cases h2 : (inp.Read (inp.Seek (inp.Read (inp.Seek s DOLLARS_POS Whence.SeekStart).1 4).1
        RUBLES_POS Whence.SeekStart).1 4).2.2 with
    | some e2 => simp
    | none =>
      simp only [h2] at herr ⊢
      split at herr
      · rename_i h3
        simp [h3]
      · exact absurd rfl herr

/-- The amended C4 on a file of 390 bytes: the first call stores two bytes, the second
one fails; the year and `Rubles` keep their prior values. -/
theorem Read_error_fields_witness :
    (SaveGame.Read File.readSeeker priorRecord file390).2.2 ≠ none ∧
    (SaveGame.Read File.readSeeker priorRecord file390).1.Year = priorRecord.Year ∧
    ((firstRead File.readSeeker file390).2.2 = none →
      (secondRead File.readSeeker file390).2.2 ≠ none →
      (SaveGame.Read File.readSeeker priorRecord file390).1.Rubles = priorRecord.Rubles) :=
  ⟨by decide, (Read_error_fields File.readSeeker priorRecord file390 (by decide)).1,
   (Read_error_fields File.readSeeker priorRecord file390 (by decide)).2.2.2.1⟩

/-- Claim C5, write failures: the claim asks for an error when a `Write` call fails. On
a target where every seek succeeds and each of the three `Write` calls returns
`0, ENOSPC`, `WriteTo` returns nil, for every record; nothing has been stored. -/
theorem WriteTo_ignores_Write_error (R : SaveGame) (f : File) :
    (fullWriteSeeker.Write f [0, 0, 0, 0]).2.2 = some Error.ENOSPC ∧
    SaveGame.WriteTo fullWriteSeeker R f = (R, ⟨f.data, 412⟩, none) := by
  refine ⟨rfl, ?_⟩
  simp only [SaveGame.WriteTo, fullWriteSeeker, DOLLARS_POS, RUBLES_POS, YEAR_POS,
    File.Seek_start]

/-- Claim C6 as stated fails: on the empty file, which is shorter than 414 bytes,
`WriteTo` returns nil and the file has grown to 414 bytes. -/
theorem WriteTo_empty_file_succeeds :
    emptyFile.data.length < 414 ∧
    (SaveGame.WriteTo File.writeSeeker exampleRecord emptyFile).2.2 = none ∧
    (SaveGame.WriteTo File.writeSeeker exampleRecord emptyFile).2.1.data.length = 414 := by
  decide

/-- Claim C6, amended: for every record and every regular file shorter than 414 bytes,
`WriteTo` returns nil and extends the file to 414 bytes; the bytes between the old
end and the fields, where no field lies, read as zero. -/
theorem WriteTo_short_file_grows (R : SaveGame) (f : File) (hlen : f.data.length < 414) :
    (SaveGame.WriteTo File.writeSeeker R f).2.2 = none ∧
    (SaveGame.WriteTo File.writeSeeker R f).2.1.data.length = 414 ∧
    ∀ i : Nat, f.data.length ≤ i → i < 414 → ¬ (388 ≤ i ∧ i < 396) → ¬ (412 ≤ i) →
      (SaveGame.WriteTo File.writeSeeker R f).2.1.data[i]? = some 0 := by
  refine ⟨by rw [WriteTo_file], ?_, ?_⟩
  · rw [WriteTo_file_length]; omega
  · intro i h1 h2 h3 h4
    rw [WriteTo_file]
    simp only [wr_getElem? _ _ _ (List.cons_ne_nil _ _), wr_length _ _ _ (List.cons_ne_nil _ _),
      List.length_cons, List.length_nil]
    split_ifs <;> first | omega | rfl

/-- The amended C6 on a file of 390 bytes. -/
theorem WriteTo_short_file_grows_witness :
    file390.data.length < 414 ∧
    (SaveGame.WriteTo File.writeSeeker exampleRecord file390).2.2 = none ∧
    (SaveGame.WriteTo File.writeSeeker exampleRecord file390).2.1.data.length = 414 ∧
    (SaveGame.WriteTo File.writeSeeker exampleRecord file390).2.1.data[400]? = some 0 :=
  ⟨by decide, (WriteTo_short_file_grows exampleRecord file390 (by decide)).1,
   (WriteTo_short_file_grows exampleRecord file390 (by decide)).2.1,
   (WriteTo_short_file_grows exampleRecord file390 (by decide)).2.2 400 (by decide)
     (by omega) (by omega) (by omega)⟩

/-- Claim C7, seek failures during decode: the claim asks for an error when a `Seek`
call fails. On a stream of twelve bytes whose `Seek` fails with `ESPIPE`, `Read`
returns nil and decodes from where the cursor is: `Dollars` from bytes 0..3,
`Rubles` from bytes 4..7, the year from bytes 8..9. -/
theorem Read_ignores_Seek_error :
    (pipeReadSeeker.Seek [1, 2, 3, 4, 5, 6, 7, 8, 9, 10, 11, 12] 388 Whence.SeekStart).2.2 =
      some Error.ESPIPE ∧
    SaveGame.Read pipeReadSeeker priorRecord [1, 2, 3, 4, 5, 6, 7, 8, 9, 10, 11, 12] =
      (⟨2569, ⟨134678021⟩, ⟨67305985⟩⟩, [11, 12], none) := by
  decide

/-- Claim C8, decode layout: for every regular file of at least 414 bytes, at any
offset, and every prior receiver, `Read` returns nil, sets `Dollars` to the float
whose bit pattern (the field `bits`) is b[388] + 2^8 b[389] + 2^16 b[390] + 2^24 b[391],
`Rubles` to the float whose bit pattern is
b[392] + 2^8 b[393] + 2^16 b[394] + 2^24 b[395] and the year to b[412] + 2^8 b[413],
and leaves the contents of the file as they were. The two floats are written with the
constructor of `Float32`, so the patterns are stated, not computed by the decoder. -/
theorem Read_layout (sg : SaveGame) (f : File) (hlen : 414 ≤ f.data.length)
    (hb : Bytes f.data) :
    SaveGame.Read File.readSeeker sg f =
      (⟨f.data.getD 412 0 + 2 ^ 8 * f.data.getD 413 0,
        ⟨f.data.getD 392 0 + 2 ^ 8 * f.data.getD 393 0 +
          2 ^ 16 * f.data.getD 394 0 + 2 ^ 24 * f.data.getD 395 0⟩,
        ⟨f.data.getD 388 0 + 2 ^ 8 * f.data.getD 389 0 +
          2 ^ 16 * f.data.getD 390 0 + 2 ^ 24 * f.data.getD 391 0⟩⟩, ⟨f.data, 414⟩, none) :=
  Read_file_sum sg f hlen hb

/-- The decode layout on a file whose bytes 412 and 413 are 0xFF and whose float
fields hold 123.5 and 4567.25: the year is 65535, the bit pattern of `Dollars` is
0x42F70000 = 1123483648 and that of `Rubles` is 0x458EBA00 = 1166981632. -/
theorem Read_layout_witness :
    414 ≤ maxYearFile.data.length ∧ Bytes maxYearFile.data ∧
    SaveGame.Read File.readSeeker priorRecord maxYearFile =
      (⟨65535, ⟨1166981632⟩, ⟨1123483648⟩⟩, ⟨maxYearFile.data, 414⟩, none) ∧
    (SaveGame.Read File.readSeeker priorRecord maxYearFile).1.Dollars.bits = 1123483648 ∧
    (SaveGame.Read File.readSeeker priorRecord maxYearFile).1.Rubles.bits = 1166981632 ∧
    (SaveGame.Read File.readSeeker priorRecord maxYearFile).1.Year = 65535 :=
  ⟨by decide, by decide,
   (Read_layout priorRecord maxYearFile (by decide) (by decide)).trans (by decide),
   by rw [Read_layout priorRecord maxYearFile (by decide) (by decide)]; decide,
   by rw [Read_layout priorRecord maxYearFile (by decide) (by decide)]; decide,
   by rw [Read_layout priorRecord maxYearFile (by decide) (by decide)]; decide⟩

/-- Claim C9, encode layout: on a regular file of at least 414 bytes, at any offset,
`WriteTo` returns nil; afterwards bytes 388..391 are the little-endian bytes of the
bit pattern of `Dollars`, bytes 392..395 those of `Rubles`, bytes 412..413 the low
and then the high byte of the year; the receiver is unchanged. -/
theorem WriteTo_layout (R : SaveGame) (f : File) (hlen : 414 ≤ f.data.length) :
    (SaveGame.WriteTo File.writeSeeker R f).2.2 = none ∧
    (SaveGame.WriteTo File.writeSeeker R f).1 = R ∧
    (SaveGame.WriteTo File.writeSeeker R f).2.1.data[388]? = some (Float32bits R.Dollars % 256) ∧
    (SaveGame.WriteTo File.writeSeeker R f).2.1.data[389]? =
      some (Float32bits R.Dollars / 2 ^ 8 % 256) ∧
    (SaveGame.WriteTo File.writeSeeker R f).2.1.data[390]? =
      some (Float32bits R.Dollars / 2 ^ 16 % 256) ∧
    (SaveGame.WriteTo File.writeSeeker R f).2.1.data[391]? =
      some (Float32bits R.Dollars / 2 ^ 24 % 256) ∧
    (SaveGame.WriteTo File.writeSeeker R f).2.1.data[392]? = some (Float32bits R.Rubles % 256) ∧
    (SaveGame.WriteTo File.writeSeeker R f).2.1.data[393]? =
      some (Float32bits R.Rubles / 2 ^ 8 % 256) ∧
    (SaveGame.WriteTo File.writeSeeker R f).2.1.data[394]? =
      some (Float32bits R.Rubles / 2 ^ 16 % 256) ∧
    (SaveGame.WriteTo File.writeSeeker R f).2.1.data[395]? =
      some (Float32bits R.Rubles / 2 ^ 24 % 256) ∧
    (SaveGame.WriteTo File.writeSeeker R f).2.1.data[412]? = some (R.Year % 256) ∧
    (SaveGame.WriteTo File.writeSeeker R f).2.1.data[413]? = some (R.Year / 2 ^ 8 % 256) := by
  refine ⟨by rw [WriteTo_file], by rw [WriteTo_file], ?_, ?_, ?_, ?_, ?_, ?_, ?_, ?_, ?_, ?_⟩ <;>
    rw [WriteTo_file_getElem? R f hlen] <;>
    simp [Float32bits, Nat.shiftRight_eq_div_pow]

/-- The encode layout on the worked example: the ten field bytes are
0, 0, 0xF7, 0x42, then 0, 0xBA, 0x8E, 0x45, then 0xEF, 0x07. -/
theorem WriteTo_layout_witness :
    414 ≤ zeroFile.data.length ∧
    (SaveGame.WriteTo File.writeSeeker exampleRecord zeroFile).2.2 = none ∧
    (SaveGame.WriteTo File.writeSeeker exampleRecord zeroFile).2.1.data[390]? =
      some (Float32bits exampleRecord.Dollars / 2 ^ 16 % 256) ∧
    ((SaveGame.WriteTo File.writeSeeker exampleRecord zeroFile).2.1.data.drop 388).take 8 =
      [0, 0, 247, 66, 0, 186, 142, 69] ∧
    ((SaveGame.WriteTo File.writeSeeker exampleRecord zeroFile).2.1.data.drop 412).take 2 =
      [239, 7] :=
  ⟨by decide,
   (WriteTo_layout exampleRecord zeroFile (by decide)).1,
   (WriteTo_layout exampleRecord zeroFile (by decide)).2.2.2.2.1,
   by decide, by decide⟩

/-- Claim C10, load then save: for every regular file of at least 414 bytes and every
offset of the handle used for saving, `Read` returns nil, and `WriteTo` of the record
it produced returns nil and leaves the contents byte for byte as they were, whatever
the 32-bit patterns in the two float fields are. -/
theorem Read_WriteTo_identity (sg : SaveGame) (f : File) (p : Nat)
    (hlen : 414 ≤ f.data.length) (hb : Bytes f.data) :
    (SaveGame.Read File.readSeeker sg f).2.2 = none ∧
    (SaveGame.WriteTo File.writeSeeker (SaveGame.Read File.readSeeker sg f).1 ⟨f.data, p⟩).2.2
      = none ∧
    (SaveGame.WriteTo File.writeSeeker (SaveGame.Read File.readSeeker sg f).1
      ⟨f.data, p⟩).2.1.data = f.data := by
  refine ⟨by rw [Read_file sg f hlen], by rw [WriteTo_file], ?_⟩
  apply List.ext_getElem?
  intro i
  rw [WriteTo_file_getElem? _ ⟨f.data, p⟩ hlen, Read_file_sum sg f hlen hb]
  have b0 := Bytes_getD _ hb 388
  have b1 := Bytes_getD _ hb 389
  have b2 := Bytes_getD _ hb 390
  have b3 := Bytes_getD _ hb 391
  have c0 := Bytes_getD _ hb 392
  have c1 := Bytes_getD _ hb 393
  have c2 := Bytes_getD _ hb 394
  have c3 := Bytes_getD _ hb 395
  have y0 := Bytes_getD _ hb 412
  have y1 := Bytes_getD _ hb 413
  simp only [Float32frombits, Nat.shiftRight_eq_div_pow]
  split_ifs with h1 h2 h3
  · have : i = 412 ∨ i = 413 := by omega
    rcases this with rfl | rfl <;> rw [getElem?_eq_some_getD f.data _ (by omega)] <;>
      simp [-List.getD_eq_getElem?_getD] <;> omega
  · have : i = 392 ∨ i = 393 ∨ i = 394 ∨ i = 395 := by omega
    rcases this with rfl | rfl | rfl | rfl <;>
      rw [getElem?_eq_some_getD f.data _ (by omega)] <;>
      simp [-List.getD_eq_getElem?_getD] <;> omega
  · have : i = 388 ∨ i = 389 ∨ i = 390 ∨ i = 391 := by omega
    rcases this with rfl | rfl | rfl | rfl <;>
      rw [getElem?_eq_some_getD f.data _ (by omega)] <;>
      simp [-List.getD_eq_getElem?_getD] <;> omega
  · rfl

/-- Load then save on a file whose dollars field is a NaN with a payload and whose
rubles field is negative zero. -/
theorem Read_WriteTo_identity_witness :
    414 ≤ oddFloatsFile.data.length ∧ Bytes oddFloatsFile.data ∧
    (SaveGame.Read File.readSeeker priorRecord oddFloatsFile).1 =
      ⟨2031, ⟨0x80000000⟩, ⟨0x7FC00001⟩⟩ ∧
    (SaveGame.WriteTo File.writeSeeker (SaveGame.Read File.readSeeker priorRecord oddFloatsFile).1
      ⟨oddFloatsFile.data, 0⟩).2.1.data = oddFloatsFile.data :=
  ⟨by decide, by decide, by decide,
   (Read_WriteTo_identity priorRecord oddFloatsFile 0 (by decide) (by decide)).2.2⟩

end Srsge
